import Mathlib

/-!
Verification of the EdgeFS target layout planner
(`pkg/operator/edgefs/cluster/target/layout.go`).

The Go functions `getIdDevLinkName`, `GetRTDevices` and `GetRtlfsDevices`
are shallowly embedded below.  Go slices become `List`, the Go
`(value, error)` return pair becomes `List _ × Option String`
(`none` = nil error), and a function taking a possibly-nil pointer takes
an `Option` argument.
-/

set_option autoImplicit false

namespace Layout

/-- Modelled from the spec: the fields of the discovery collaborator's
`sys.LocalDisk` record used by the planner — kernel device name, the
whitespace-separated alternate-link string (`DevLinks`), the `Empty`
flag, the number of entries of the `Partitions` slice, and the
`Rotational` flag.  The struct definition itself is outside this
repository slice; only these fields are read by `layout.go`. -/
structure LocalDisk where
  name : String
  devLinks : String
  empty : Bool
  partitions : Nat
  rotational : Bool
deriving Repr, DecidableEq

/-- Modelled from the spec: the recognized options of
`config.StoreConfig` read by the planner (§3 of the spec).  Numeric
pass-through fields are modelled as `Int`. -/
structure StoreConfig where
  useAllSSD : Bool
  useMetadataOffload : Bool
  useBCache : Bool
  useBCacheWB : Bool
  useMetadataMask : String
  lmdbPageSize : Int
  rtVerifyChid : Int
  sync : Int
  rtPLevelOverride : Int
  maxSize : Int
deriving Repr, DecidableEq

/-- Modelled from the spec: the output record
`edgefsv1alpha1.RTDevice`.  Fields not assigned by a branch of
`GetRTDevices` keep the Go zero value (`""` / `0`). -/
structure RTDevice where
  name : String
  device : String
  psize : Int
  verifyChid : Int
  journal : String
  metadata : String
  bcache : Int
  bcacheWritearound : Int
  plevelOverride : Int
  sync : Int
deriving Repr, DecidableEq

/-- Modelled from the spec: a `rookalpha.Directory`; only `Path` is read. -/
structure Directory where
  path : String
deriving Repr, DecidableEq

/-- Modelled from the spec: the output record
`edgefsv1alpha1.RtlfsDevice`. -/
structure RtlfsDevice where
  name : String
  path : String
  checkMountpoint : Int
  psize : Int
  verifyChid : Int
  sync : Int
  maxsize : Int
  plevelOverride : Int
deriving Repr, DecidableEq

/-! ### String helpers (embeddings of the Go `strings` / `path/filepath`
operations used by `layout.go`) -/

/-- Embeds Go `strings.Contains s pat` on character lists: `pat` occurs
as a contiguous substring of `s`. -/
def containsSub (s pat : List Char) : Bool :=
  if pat.isPrefixOf s then true
  else
    match s with
    | [] => false
    | _ :: rest => containsSub rest pat

/-- Embeds Go `strings.Replace s pat "" 1` on character lists: remove
the first occurrence of `pat` from `s` (identity when `pat` does not
occur). -/
def replaceFirstList (s pat : List Char) : List Char :=
  if pat.isPrefixOf s then s.drop pat.length
  else
    match s with
    | [] => []
    | c :: rest => c :: replaceFirstList rest pat

/-- Embeds Go `strings.Contains` on `String`. -/
def containsStr (s pat : String) : Bool :=
  containsSub s.data pat.data

/-- Embeds Go `strings.Replace s pat "" 1` on `String`. -/
def replaceOnce (s pat : String) : String :=
  String.mk (replaceFirstList s.data pat.data)

/-- The loop body of `getIdDevLinkName`: scan the space-separated
candidates; for each, strip the first occurrence of
`"/dev/disk/by-id/"`; skip it when the result contains `"/"` or
contains `"wwn-"`; return the first survivor, or `""` when none
survives (Go `dl` keeps its zero value). -/
def pickDevLink : List String → String
  | [] => ""
  | t :: rest =>
    let s := replaceOnce t "/dev/disk/by-id/"
    if containsStr s "/" || containsStr s "wwn-" then pickDevLink rest
    else s

/-- Embeds Go `strings.Split s " "` on character lists: split around
every single space; the empty string yields `[""]` and adjacent or
leading/trailing spaces yield empty fields, as in Go. -/
def splitOnSpace : List Char → List (List Char)
  | [] => [[]]
  | c :: rest =>
    match splitOnSpace rest, c == ' ' with
    | r, true => [] :: r
    | [], false => [[c]]
    | w :: ws, false => (c :: w) :: ws

/-- Embeds Go `strings.Split s " "` on `String`. -/
def splitOnSpaceStr (s : String) : List String :=
  (splitOnSpace s.data).map (fun cs => String.mk cs)

/-- Embeds `getIdDevLinkName` (layout.go lines 36–47). -/
def getIdDevLinkName (dls : String) : String :=
  pickDevLink (splitOnSpaceStr dls)

/-- Strip trailing `/` characters, as the loop at the start of Go
`filepath.Base` does on Unix. -/
def dropTrailingSlashes (cs : List Char) : List Char :=
  ((cs.reverse).dropWhile (fun c => c == '/')).reverse

/-- Characters after the last `/` (the whole list when there is no `/`),
matching `strings.LastIndex` + slice in Go `filepath.Base`. -/
def afterLastSlash (cs : List Char) : List Char :=
  cs.foldl (fun acc c => if c == '/' then [] else acc ++ [c]) []

/-- Embeds Go `filepath.Base` (Unix): `""` ↦ `"."`; otherwise strip
trailing separators, keep everything after the last separator, and
answer `"/"` when only separators remain. -/
def filepathBase (path : String) : String :=
  if path == "" then "."
  else
    let cs := dropTrailingSlashes path.data
    let tail := afterLastSlash cs
    if tail.isEmpty then "/" else String.mk tail

/-! ### The planner -/

/-- The eligibility filter of the classification loop (layout.go line
64): a disk is kept iff `Empty && len(Partitions) == 0`. -/
def eligible (d : LocalDisk) : Bool :=
  d.empty && d.partitions == 0

/-- The `ssds` bucket built by the classification loop: eligible
non-rotational disks in discovery order. -/
def ssdsOf (nodeDisks : List LocalDisk) : List LocalDisk :=
  nodeDisks.filter (fun d => eligible d && !d.rotational)

/-- The `hdds` bucket built by the classification loop: eligible
rotational disks in discovery order. -/
def hddsOf (nodeDisks : List LocalDisk) : List LocalDisk :=
  nodeDisks.filter (fun d => eligible d && d.rotational)

/-- The `devices` list built by the classification loop: all eligible
disks in discovery order. -/
def devicesOf (nodeDisks : List LocalDisk) : List LocalDisk :=
  nodeDisks.filter eligible

/-- One iteration's chunk size in the hybrid division loop (layout.go
lines 142–150): `len(hdds)/i`, incremented when there is a remainder,
clamped to `len(hdds)`. -/
def goChunkSize (n i : Nat) : Nat :=
  let c0 := n / i + (if n % i > 0 then 1 else 0)
  if n < c0 then n else c0

/-- The hybrid division loop (layout.go lines 140–153): for
`i = k, k-1, …, 1` take a `goChunkSize` prefix of the remaining pool.
Produces the `hdds_divided` list of contiguous groups. -/
def hddsDivide {α : Type} (l : List α) : Nat → List (List α)
  | 0 => []
  | i + 1 =>
    let c := goChunkSize l.length (i + 1)
    l.take c :: hddsDivide (l.drop c) i

/-- The `RTDevice` built by the all-SSD and all-HDD branches
(layout.go lines 91–100 and 118–127); `Journal`, `Metadata`, `Bcache`
and `BcacheWritearound` keep their Go zero values there. -/
def mkPlainRTDevice (cfg : StoreConfig) (d : LocalDisk) : RTDevice :=
  let base : RTDevice :=
    { name := getIdDevLinkName d.devLinks
      device := "/dev/" ++ d.name
      psize := cfg.lmdbPageSize
      verifyChid := cfg.rtVerifyChid
      journal := ""
      metadata := ""
      bcache := 0
      bcacheWritearound := 0
      plevelOverride := 0
      sync := cfg.sync }
  if cfg.rtPLevelOverride != 0 then
    { base with plevelOverride := cfg.rtPLevelOverride }
  else base

/-- The `RTDevice` built by the hybrid branch for a rotational disk
`hdd` paired with solid-state disk `ssd` (layout.go lines 157–178),
including the `map[bool]int{true: 0, false: 1}[UseBCacheWB]` initial
write-around value and the `UseBCache` / `UseBCacheWB` fix-up. -/
def mkHybridRTDevice (cfg : StoreConfig) (hdd ssd : LocalDisk) : RTDevice :=
  let base : RTDevice :=
    { name := getIdDevLinkName hdd.devLinks
      device := "/dev/" ++ hdd.name
      psize := cfg.lmdbPageSize
      verifyChid := cfg.rtVerifyChid
      bcacheWritearound := if cfg.useBCacheWB then 0 else 1
      journal := getIdDevLinkName ssd.devLinks
      metadata := getIdDevLinkName ssd.devLinks ++ "," ++ cfg.useMetadataMask
      bcache := 0
      sync := cfg.sync
      plevelOverride := 0 }
  let withCache :=
    if cfg.useBCache then
      if cfg.useBCacheWB then { base with bcache := 1, bcacheWritearound := 0 }
      else { base with bcache := 1 }
    else base
  if cfg.rtPLevelOverride != 0 then
    { withCache with plevelOverride := cfg.rtPLevelOverride }
  else withCache

/-- Embeds `GetRTDevices` (layout.go lines 49–183).  The Go
`(rtDevices, err)` pair is the returned pair; `storeConfig = none`
models the nil pointer.  The hybrid branch pairs group `i` of
`hdds_divided` with `ssds[i]`; since the division always yields exactly
`len(ssds)` groups, the `zip` below indexes exactly as the Go
`ssds[i]` does. -/
def getRTDevices (nodeDisks : List LocalDisk) (storeConfig : Option StoreConfig) :
    List RTDevice × Option String :=
  match storeConfig with
  | none => ([], some "no pointer to StoreConfig provided")
  | some cfg =>
    if nodeDisks.isEmpty then ([], none)
    else
      let ssds := ssdsOf nodeDisks
      let hdds := hddsOf nodeDisks
      let devices := devicesOf nodeDisks
      if cfg.useAllSSD then
        if ssds.isEmpty then ([], some "No SSD/NVMe media found")
        else
          ((devices.filter (fun d => !d.rotational)).map (mkPlainRTDevice cfg), none)
      else if hdds.isEmpty then ([], some "No HDD media found")
      else if !cfg.useMetadataOffload then
        ((devices.filter (fun d => d.rotational)).map (mkPlainRTDevice cfg), none)
      else if hdds.length < ssds.length || ssds.length == 0 then
        ([], some ("Confusing use of useMetadataOffload parameter HDDs(" ++
          toString hdds.length ++ ") < SSDs(" ++ toString ssds.length ++ ")\n"))
      else
        ((((hddsDivide hdds ssds.length).zip ssds).map
            (fun p => p.1.map (fun hdd => mkHybridRTDevice cfg hdd p.2))).flatten,
          none)

/-- The `RtlfsDevice` built per directory (layout.go lines 188–201). -/
def mkRtlfsDevice (cfg : StoreConfig) (dir : Directory) : RtlfsDevice :=
  let base : RtlfsDevice :=
    { name := filepathBase dir.path
      path := dir.path
      checkMountpoint := 0
      psize := cfg.lmdbPageSize
      verifyChid := cfg.rtVerifyChid
      sync := cfg.sync
      maxsize := 0
      plevelOverride := 0 }
  let withMax :=
    if cfg.maxSize != 0 then { base with maxsize := cfg.maxSize } else base
  if cfg.rtPLevelOverride != 0 then
    { withMax with plevelOverride := cfg.rtPLevelOverride }
  else withMax

/-- Embeds `GetRtlfsDevices` (layout.go lines 185–205).  The Go
function has no error return and performs no nil check on
`storeConfig`; each loop iteration dereferences it, so a nil pointer
with a non-empty directory list is a runtime panic, modelled as
`none`.  An empty directory list never dereferences the pointer and
returns the empty list. -/
def getRtlfsDevices : List Directory → Option StoreConfig → Option (List RtlfsDevice)
  | [], _ => some []
  | _ :: _, none => none
  | dir :: rest, some cfg =>
    (getRtlfsDevices rest (some cfg)).map (fun tl => mkRtlfsDevice cfg dir :: tl)

/-! ### Arithmetic facts about the hybrid division loop -/

/-- The chunk sizes produced by the division loop, as pure arithmetic:
`chunkSizes n k` are the lengths of the groups `hddsDivide l k` cuts
out of a pool of `n = l.length` elements. -/
def chunkSizes : Nat → Nat → List Nat
  | _, 0 => []
  | n, i + 1 => goChunkSize n (i + 1) :: chunkSizes (n - goChunkSize n (i + 1)) i

theorem goChunkSize_le (n i : Nat) : goChunkSize n i ≤ n := by
  have h : ∀ c0 : Nat, (if n < c0 then n else c0) ≤ n := by
    intro c0
    split
    · exact Nat.le_refl n
    · exact Nat.le_of_not_lt (by assumption)
  simp only [goChunkSize]
  exact h _

/-- With a positive loop counter the clamp in `goChunkSize` never
fires: the size is `⌈n / i⌉` written as `n / i` plus one on remainder. -/
theorem goChunkSize_eq (n i : Nat) (hi : 0 < i) :
    goChunkSize n i = n / i + (if n % i > 0 then 1 else 0) := by
  have hdm := Nat.div_add_mod n i
  have h1 : n / i ≤ i * (n / i) := Nat.le_mul_of_pos_left _ hi
  have hle : n / i + (if n % i > 0 then 1 else 0) ≤ n := by
    split <;> omega
  simp only [goChunkSize]
  exact if_neg (Nat.not_lt.2 hle)

theorem goChunkSize_one (n : Nat) : goChunkSize n 1 = n := by
  rw [goChunkSize_eq n 1 Nat.one_pos]
  simp [Nat.mod_one, Nat.div_one]

theorem hddsDivide_length {α : Type} (l : List α) (k : Nat) :
    (hddsDivide l k).length = k := by
  induction k generalizing l with
  | zero => rfl
  | succ i ih => simp [hddsDivide, ih]

theorem hddsDivide_map_length {α : Type} (l : List α) (k : Nat) :
    (hddsDivide l k).map List.length = chunkSizes l.length k := by
  induction k generalizing l with
  | zero => rfl
  | succ i ih =>
    rw [hddsDivide, chunkSizes, List.map_cons, List.length_take]
    refine congrArg₂ _ (Nat.min_eq_left (goChunkSize_le _ _)) ?_
    rw [ih, List.length_drop]

theorem hddsDivide_flatten {α : Type} (l : List α) (k : Nat) (hk : 0 < k) :
    (hddsDivide l k).flatten = l := by
  induction k generalizing l with
  | zero => exact absurd hk (by omega)
  | succ i ih =>
    cases i with
    | zero =>
      rw [hddsDivide]
      simp [hddsDivide, goChunkSize_one, List.take_length]
    | succ j =>
      rw [hddsDivide, List.flatten_cons, ih _ (Nat.succ_pos j), List.take_append_drop]

/-- The division identity behind one step of the loop: removing a
ceiling-sized chunk from `(m + 1) * q + r` elements leaves a pool whose
quotient by `m` is again `q` and whose remainder is `r - 1`. -/
theorem chunk_step (m q r : Nat) (hm : 0 < m) (hr : r < m + 1) :
    ((m + 1) * q + r - (q + if r > 0 then 1 else 0)) / m = q ∧
    ((m + 1) * q + r - (q + if r > 0 then 1 else 0)) % m = r - 1 := by
  have hx : (m + 1) * q = m * q + q := by ring
  rcases Nat.eq_zero_or_pos r with h0 | h0
  · subst h0
    have hnum : (m + 1) * q + 0 - (q + if 0 > 0 then 1 else 0) = m * q := by
      simp only [Nat.lt_irrefl, if_false]
      omega
    rw [hnum]
    exact ⟨Nat.mul_div_cancel_left q hm, Nat.mul_mod_right m q⟩
  · have hnum : (m + 1) * q + r - (q + if r > 0 then 1 else 0) = m * q + (r - 1) := by
      rw [if_pos h0]
      omega
    rw [hnum]
    constructor
    · rw [Nat.mul_add_div hm, Nat.div_eq_of_lt (by omega), Nat.add_zero]
    · rw [Nat.mul_add_mod, Nat.mod_eq_of_lt (by omega)]

/-- Transport of per-chunk bounds across one step of the loop: bounds
for the pool that remains after removing a ceiling-sized chunk imply
the same bounds with respect to the original pool and counter. -/
theorem chunk_tail_bound (j n m : Nat) (hj : 0 < j)
    (hb : (n - goChunkSize n (j + 1)) / j ≤ m ∧
      m ≤ (n - goChunkSize n (j + 1)) / j +
        (if (n - goChunkSize n (j + 1)) % j > 0 then 1 else 0)) :
    n / (j + 1) ≤ m ∧ m ≤ n / (j + 1) + (if n % (j + 1) > 0 then 1 else 0) := by
  obtain ⟨hdiv, hmod⟩ := chunk_step j (n / (j + 1)) (n % (j + 1)) hj (Nat.mod_lt n (by omega))
  have hc := goChunkSize_eq n (j + 1) (by omega)
  have hdm := Nat.div_add_mod n (j + 1)
  have hnum : n - goChunkSize n (j + 1) =
      (j + 1) * (n / (j + 1)) + n % (j + 1) -
        (n / (j + 1) + if n % (j + 1) > 0 then 1 else 0) := by
    rw [hc]
    congr 1
    omega
  rw [hnum, hdiv, hmod] at hb
  rcases hb with ⟨hb1, hb2⟩
  refine ⟨hb1, ?_⟩
  split_ifs at hb2 ⊢ <;> omega

/-- Every chunk size lies between `⌊n / k⌋` and `⌈n / k⌉`. -/
theorem chunkSizes_bounds :
    ∀ (k n : Nat), 0 < k → ∀ m ∈ chunkSizes n k,
      n / k ≤ m ∧ m ≤ n / k + (if n % k > 0 then 1 else 0) := by
  intro k
  induction k with
  | zero => intro n h; exact absurd h (by omega)
  | succ j ih =>
    intro n _ m hm
    rw [chunkSizes] at hm
    rcases List.mem_cons.1 hm with hm | hm
    · subst hm
      rw [goChunkSize_eq n (j + 1) (by omega)]
      exact ⟨Nat.le_add_right _ _, Nat.le_refl _⟩
    · rcases Nat.eq_zero_or_pos j with hj | hj
      · subst hj
        simp [chunkSizes] at hm
      · exact chunk_tail_bound j n m hj (ih (n - goChunkSize n (j + 1)) hj m hm)

/-- Every chunk after the first is no larger than the first. -/
theorem chunkSizes_tail_le (j n : Nat) (hj : 0 < j) :
    ∀ m ∈ chunkSizes (n - goChunkSize n (j + 1)) j, m ≤ goChunkSize n (j + 1) := by
  intro m hm
  have hb := chunk_tail_bound j n m hj (chunkSizes_bounds j _ hj m hm)
  rw [goChunkSize_eq n (j + 1) (by omega)]
  exact hb.2

/-- The chunk sizes are non-increasing along the list. -/
theorem chunkSizes_pairwise (k : Nat) :
    ∀ n, List.Pairwise (fun a b => b ≤ a) (chunkSizes n k) := by
  induction k with
  | zero => intro n; exact List.Pairwise.nil
  | succ j ih =>
    intro n
    rw [chunkSizes]
    refine List.pairwise_cons.2 ⟨?_, ih _⟩
    rcases Nat.eq_zero_or_pos j with hj | hj
    · subst hj
      intro m hm
      simp [chunkSizes] at hm
    · exact chunkSizes_tail_le j n hj

/-- Any two chunk sizes differ by at most one. -/
theorem chunkSizes_diff_le_one (k n : Nat) (hk : 0 < k) :
    ∀ a ∈ chunkSizes n k, ∀ b ∈ chunkSizes n k, a ≤ b + 1 := by
  intro a ha b hb
  obtain ⟨ha1, ha2⟩ := chunkSizes_bounds k n hk a ha
  obtain ⟨hb1, hb2⟩ := chunkSizes_bounds k n hk b hb
  split_ifs at ha2 hb2 <;> omega

/-! ### Branch evaluation lemmas for `getRTDevices` -/

theorem isEmpty_false_of_ne {α : Type} (l : List α) (h : l ≠ []) :
    l.isEmpty = false := by
  cases l with
  | nil => exact absurd rfl h
  | cons a t => rfl

theorem devices_filter_not_rot (l : List LocalDisk) :
    (devicesOf l).filter (fun d => !d.rotational) = ssdsOf l := by
  rw [devicesOf, ssdsOf, List.filter_filter]
  refine List.filter_congr ?_
  intro a _
  cases eligible a <;> cases a.rotational <;> rfl

theorem devices_filter_rot (l : List LocalDisk) :
    (devicesOf l).filter (fun d => d.rotational) = hddsOf l := by
  rw [devicesOf, hddsOf, List.filter_filter]
  refine List.filter_congr ?_
  intro a _
  cases eligible a <;> cases a.rotational <;> rfl

theorem ssdsOf_filter_eligible (l : List LocalDisk) :
    ssdsOf (l.filter eligible) = ssdsOf l := by
  rw [ssdsOf, List.filter_filter, ssdsOf]
  refine List.filter_congr ?_
  intro a _
  cases eligible a <;> cases a.rotational <;> rfl

theorem hddsOf_filter_eligible (l : List LocalDisk) :
    hddsOf (l.filter eligible) = hddsOf l := by
  rw [hddsOf, List.filter_filter, hddsOf]
  refine List.filter_congr ?_
  intro a _
  cases eligible a <;> cases a.rotational <;> rfl

theorem devicesOf_filter_eligible (l : List LocalDisk) :
    devicesOf (l.filter eligible) = devicesOf l := by
  rw [devicesOf, devicesOf, List.filter_filter]
  refine List.filter_congr ?_
  intro a _
  cases eligible a <;> rfl

theorem ssdsOf_devices (l : List LocalDisk) :
    ssdsOf (devicesOf l) = ssdsOf l := ssdsOf_filter_eligible l

theorem getRTDevices_allSSD (l : List LocalDisk) (cfg : StoreConfig)
    (hA : cfg.useAllSSD = true) (hS : ssdsOf l ≠ []) :
    getRTDevices l (some cfg) = ((ssdsOf l).map (mkPlainRTDevice cfg), none) := by
  have hl : l ≠ [] := by
    intro h
    rw [h] at hS
    exact hS rfl
  have h1 : l.isEmpty = false := isEmpty_false_of_ne l hl
  have h2 : (ssdsOf l).isEmpty = false := isEmpty_false_of_ne _ hS
  simp only [getRTDevices, h1, Bool.false_eq_true, if_false, hA, if_true, h2]
  rw [devices_filter_not_rot]

theorem getRTDevices_noSSD (l : List LocalDisk) (cfg : StoreConfig)
    (hA : cfg.useAllSSD = true) (hl : l ≠ []) (hS : ssdsOf l = []) :
    getRTDevices l (some cfg) = ([], some "No SSD/NVMe media found") := by
  have h1 : l.isEmpty = false := isEmpty_false_of_ne l hl
  have h2 : (ssdsOf l).isEmpty = true := by rw [hS]; rfl
  simp only [getRTDevices, h1, Bool.false_eq_true, if_false, hA, if_true, h2]

theorem getRTDevices_allHDD (l : List LocalDisk) (cfg : StoreConfig)
    (hA : cfg.useAllSSD = false) (hM : cfg.useMetadataOffload = false)
    (hH : hddsOf l ≠ []) :
    getRTDevices l (some cfg) = ((hddsOf l).map (mkPlainRTDevice cfg), none) := by
  have hl : l ≠ [] := by
    intro h
    rw [h] at hH
    exact hH rfl
  have h1 : l.isEmpty = false := isEmpty_false_of_ne l hl
  have h2 : (hddsOf l).isEmpty = false := isEmpty_false_of_ne _ hH
  simp only [getRTDevices, h1, Bool.false_eq_true, if_false, hA, h2, hM,
    Bool.not_false, if_true]
  rw [devices_filter_rot]

theorem getRTDevices_noHDD (l : List LocalDisk) (cfg : StoreConfig)
    (hA : cfg.useAllSSD = false) (hl : l ≠ []) (hH : hddsOf l = []) :
    getRTDevices l (some cfg) = ([], some "No HDD media found") := by
  have h1 : l.isEmpty = false := isEmpty_false_of_ne l hl
  have h2 : (hddsOf l).isEmpty = true := by rw [hH]; rfl
  simp only [getRTDevices, h1, Bool.false_eq_true, if_false, hA, h2, if_true]

theorem getRTDevices_hybrid (l : List LocalDisk) (cfg : StoreConfig)
    (hA : cfg.useAllSSD = false) (hM : cfg.useMetadataOffload = true)
    (hS : ssdsOf l ≠ []) (hLe : (ssdsOf l).length ≤ (hddsOf l).length) :
    getRTDevices l (some cfg) =
      ((((hddsDivide (hddsOf l) (ssdsOf l).length).zip (ssdsOf l)).map
          (fun p => p.1.map (fun hdd => mkHybridRTDevice cfg hdd p.2))).flatten,
        none) := by
  have hl : l ≠ [] := by
    intro h
    rw [h] at hS
    exact hS rfl
  have hSpos : 0 < (ssdsOf l).length := List.length_pos.2 hS
  have hH : (hddsOf l) ≠ [] := by
    intro h
    rw [h] at hLe
    simp only [List.length_nil, Nat.le_zero] at hLe
    omega
  have h1 : l.isEmpty = false := isEmpty_false_of_ne l hl
  have h2 : (hddsOf l).isEmpty = false := isEmpty_false_of_ne _ hH
  have h3 : (decide ((hddsOf l).length < (ssdsOf l).length) ||
      ((ssdsOf l).length == 0)) = false := by
    have hx : ¬ ((hddsOf l).length < (ssdsOf l).length) := Nat.not_lt.2 hLe
    have hy : (ssdsOf l).length ≠ 0 := by omega
    simp [hx, hy]
  simp only [getRTDevices, h1, Bool.false_eq_true, if_false, hA, h2, hM,
    Bool.not_true, h3, if_true]

theorem getRTDevices_confusing (l : List LocalDisk) (cfg : StoreConfig)
    (hA : cfg.useAllSSD = false) (hM : cfg.useMetadataOffload = true)
    (hl : l ≠ []) (hH : hddsOf l ≠ [])
    (hc : (hddsOf l).length < (ssdsOf l).length ∨ (ssdsOf l).length = 0) :
    getRTDevices l (some cfg) =
      ([], some ("Confusing use of useMetadataOffload parameter HDDs(" ++
        toString (hddsOf l).length ++ ") < SSDs(" ++
        toString (ssdsOf l).length ++ ")\n")) := by
  have h1 : l.isEmpty = false := isEmpty_false_of_ne l hl
  have h2 : (hddsOf l).isEmpty = false := isEmpty_false_of_ne _ hH
  have h3 : (decide ((hddsOf l).length < (ssdsOf l).length) ||
      ((ssdsOf l).length == 0)) = true := by
    rcases hc with hc | hc
    · simp [hc]
    · simp [hc]
  simp only [getRTDevices, h1, Bool.false_eq_true, if_false, hA, h2, hM,
    Bool.not_true, h3, if_true]

/-! ### Field values of the produced records -/

theorem mkHybridRTDevice_cache (cfg : StoreConfig) (hdd ssd : LocalDisk) :
    (mkHybridRTDevice cfg hdd ssd).bcacheWritearound =
      (if cfg.useBCacheWB then 0 else 1) ∧
    (mkHybridRTDevice cfg hdd ssd).bcache = (if cfg.useBCache then 1 else 0) := by
  simp only [mkHybridRTDevice]
  cases hB : cfg.useBCache <;> cases hW : cfg.useBCacheWB <;>
    cases hP : cfg.rtPLevelOverride != 0 <;> simp [hB, hW, hP]

theorem mkHybridRTDevice_fields (cfg : StoreConfig) (hdd ssd : LocalDisk) :
    (mkHybridRTDevice cfg hdd ssd).journal = getIdDevLinkName ssd.devLinks ∧
    (mkHybridRTDevice cfg hdd ssd).metadata =
      getIdDevLinkName ssd.devLinks ++ "," ++ cfg.useMetadataMask ∧
    (mkHybridRTDevice cfg hdd ssd).device = "/dev/" ++ hdd.name ∧
    (mkHybridRTDevice cfg hdd ssd).name = getIdDevLinkName hdd.devLinks := by
  simp only [mkHybridRTDevice]
  cases hB : cfg.useBCache <;> cases hW : cfg.useBCacheWB <;>
    cases hP : cfg.rtPLevelOverride != 0 <;> simp [hB, hW, hP]

/-- Every record in a hybrid-mode output is a `mkHybridRTDevice`. -/
theorem mem_getRTDevices_hybrid (l : List LocalDisk) (cfg : StoreConfig)
    (dev : RTDevice) (hA : cfg.useAllSSD = false) (hM : cfg.useMetadataOffload = true)
    (hd : dev ∈ (getRTDevices l (some cfg)).1) :
    ∃ hdd ssd : LocalDisk, dev = mkHybridRTDevice cfg hdd ssd := by
  by_cases hl : l = []
  · subst hl
    simp [getRTDevices] at hd
  · by_cases hH : hddsOf l = []
    · rw [getRTDevices_noHDD l cfg hA hl hH] at hd
      simp at hd
    · by_cases hS : ssdsOf l = []
      · rw [getRTDevices_confusing l cfg hA hM hl hH
          (Or.inr (by rw [hS]; rfl))] at hd
        simp at hd
      · by_cases hLe : (ssdsOf l).length ≤ (hddsOf l).length
        · rw [getRTDevices_hybrid l cfg hA hM hS hLe] at hd
          simp only [List.mem_flatten, List.mem_map] at hd
          obtain ⟨sub, ⟨p, hp, rfl⟩, hdev⟩ := hd
          obtain ⟨hdd, hhdd, rfl⟩ := List.mem_map.1 hdev
          exact ⟨hdd, p.2, rfl⟩
        · rw [getRTDevices_confusing l cfg hA hM hl hH
            (Or.inl (by omega))] at hd
          simp at hd

/-- Length of a hybrid-mode output: the groups' sizes summed. -/
theorem flatten_zip_map_length {α β γ : Type} (G : List (List α)) (S : List β)
    (f : α → β → γ) (h : G.length = S.length) :
    ((G.zip S).map (fun p => p.1.map (fun a => f a p.2))).flatten.length
      = (G.map List.length).sum := by
  induction G generalizing S with
  | nil => simp
  | cons g G ih =>
    cases S with
    | nil => simp at h
    | cons s S =>
      simp only [List.zip_cons_cons, List.map_cons, List.flatten_cons,
        List.length_append, List.length_map, List.sum_cons]
      rw [ih S (by simpa using h)]

/-! ### Spec-side variants of name normalization (for claim C5) -/

/-- The C5 claim as stated: the first space-separated candidate (after
removing the `"/dev/disk/by-id/"` prefix occurrence) that has no `"/"`
and does not have the PREFIX `"wwn-"`; `""` when none qualifies. -/
def getIdDevLinkNameSpecPfx (dls : String) : String :=
  match ((splitOnSpaceStr dls).map (fun t => replaceOnce t "/dev/disk/by-id/")).filter
      (fun s => !(containsStr s "/") && !(List.isPrefixOf "wwn-".data s.data)) with
  | [] => ""
  | s :: _ => s

/-- The amended C5 property: like `getIdDevLinkNameSpecPfx` but the
World Wide Name test is a SUBSTRING test on `"wwn-"`, matching the
source's `strings.Contains`. -/
def getIdDevLinkNameSpecSub (dls : String) : String :=
  match ((splitOnSpaceStr dls).map (fun t => replaceOnce t "/dev/disk/by-id/")).filter
      (fun s => !(containsStr s "/") && !(containsStr s "wwn-")) with
  | [] => ""
  | s :: _ => s

theorem pickDevLink_eq_spec (ts : List String) :
    pickDevLink ts =
      (match (ts.map (fun t => replaceOnce t "/dev/disk/by-id/")).filter
          (fun s => !(containsStr s "/") && !(containsStr s "wwn-")) with
        | [] => ""
        | s :: _ => s) := by
  induction ts with
  | nil => rfl
  | cons t rest ih =>
    simp only [pickDevLink, List.map_cons, List.filter_cons]
    cases h1 : containsStr (replaceOnce t "/dev/disk/by-id/") "/" <;>
      cases h2 : containsStr (replaceOnce t "/dev/disk/by-id/") "wwn-" <;>
      simp [h1, h2, ih]

/-! ### Concrete inputs used by witnesses and counterexamples -/

def diskSsdA : LocalDisk :=
  { name := "sda", devLinks := "/dev/disk/by-id/ata-SSD-A", empty := true,
    partitions := 0, rotational := false }

def diskSsdB : LocalDisk :=
  { name := "sdb", devLinks := "/dev/disk/by-id/ata-SSD-B", empty := true,
    partitions := 0, rotational := false }

def diskHddA : LocalDisk :=
  { name := "sdc", devLinks := "/dev/disk/by-id/ata-HDD-A", empty := true,
    partitions := 0, rotational := true }

def diskHddB : LocalDisk :=
  { name := "sdd", devLinks := "/dev/disk/by-id/ata-HDD-B", empty := true,
    partitions := 0, rotational := true }

def diskHddC : LocalDisk :=
  { name := "sde", devLinks := "/dev/disk/by-id/ata-HDD-C", empty := true,
    partitions := 0, rotational := true }

def diskHddD : LocalDisk :=
  { name := "sdf", devLinks := "/dev/disk/by-id/ata-HDD-D", empty := true,
    partitions := 0, rotational := true }

def diskHddE : LocalDisk :=
  { name := "sdg", devLinks := "/dev/disk/by-id/ata-HDD-E", empty := true,
    partitions := 0, rotational := true }

/-- A disk the eligibility filter must exclude (in use, partitioned). -/
def diskBusy : LocalDisk :=
  { name := "sdh", devLinks := "/dev/disk/by-id/ata-BUSY", empty := false,
    partitions := 2, rotational := true }

/-- Hybrid-policy configuration for witnesses. -/
def cfgW1 : StoreConfig :=
  { useAllSSD := false, useMetadataOffload := true, useBCache := true,
    useBCacheWB := false, useMetadataMask := "0xff", lmdbPageSize := 16384,
    rtVerifyChid := 1, sync := 1, rtPLevelOverride := 4, maxSize := 0 }

/-- Hybrid-policy configuration with caching off but write-back
requested — the corner the C2 truth table gets wrong. -/
def cfgC2 : StoreConfig :=
  { useAllSSD := false, useMetadataOffload := true, useBCache := false,
    useBCacheWB := true, useMetadataMask := "0xff", lmdbPageSize := 16384,
    rtVerifyChid := 1, sync := 1, rtPLevelOverride := 0, maxSize := 0 }

/-- All-SSD-policy configuration used with claim C4. -/
def cfgC4 : StoreConfig :=
  { useAllSSD := true, useMetadataOffload := false, useBCache := false,
    useBCacheWB := false, useMetadataMask := "", lmdbPageSize := 4096,
    rtVerifyChid := 0, sync := 0, rtPLevelOverride := 0, maxSize := 0 }

/-- All-SSD-policy configuration used with claim C6. -/
def cfgC6 : StoreConfig :=
  { useAllSSD := true, useMetadataOffload := false, useBCache := false,
    useBCacheWB := false, useMetadataMask := "", lmdbPageSize := 8192,
    rtVerifyChid := 1, sync := 0, rtPLevelOverride := 2, maxSize := 0 }

/-- All-rotational-policy configuration used with claim C7. -/
def cfgC7 : StoreConfig :=
  { useAllSSD := false, useMetadataOffload := false, useBCache := false,
    useBCacheWB := false, useMetadataMask := "", lmdbPageSize := 4096,
    rtVerifyChid := 0, sync := 1, rtPLevelOverride := 0, maxSize := 0 }

/-- Two eligible solid-state disks, five eligible rotational disks and
one ineligible disk, in discovery order. -/
def disksW1 : List LocalDisk :=
  [diskSsdA, diskHddA, diskHddB, diskSsdB, diskHddC, diskHddD, diskHddE, diskBusy]

/-! ### Claim theorems -/

/-- C1: under the hybrid policy (`useAllSSD = false`,
`useMetadataOffload = true`), with at least one eligible solid-state
disk and at least as many eligible rotational disks, `GetRTDevices`
partitions the eligible rotational disks into exactly `#ssds`
contiguous groups (their concatenation is the rotational list itself),
the group sizes sum to the rotational count, any two group sizes differ
by at most one, the sizes are non-increasing, and the call succeeds
with one output assignment per rotational disk. -/
theorem c1_hybrid_balanced_partition (l : List LocalDisk) (cfg : StoreConfig)
    (hA : cfg.useAllSSD = false) (hM : cfg.useMetadataOffload = true)
    (hS : ssdsOf l ≠ []) (hLe : (ssdsOf l).length ≤ (hddsOf l).length) :
    (hddsDivide (hddsOf l) (ssdsOf l).length).length = (ssdsOf l).length ∧
    (hddsDivide (hddsOf l) (ssdsOf l).length).flatten = hddsOf l ∧
    ((hddsDivide (hddsOf l) (ssdsOf l).length).map List.length).sum
      = (hddsOf l).length ∧
    (∀ a ∈ (hddsDivide (hddsOf l) (ssdsOf l).length).map List.length,
      ∀ b ∈ (hddsDivide (hddsOf l) (ssdsOf l).length).map List.length,
        a ≤ b + 1) ∧
    List.Pairwise (fun a b => b ≤ a)
      ((hddsDivide (hddsOf l) (ssdsOf l).length).map List.length) ∧
    (getRTDevices l (some cfg)).2 = none ∧
    (getRTDevices l (some cfg)).1.length = (hddsOf l).length := by
  have hSpos : 0 < (ssdsOf l).length := List.length_pos.2 hS
  have hlen := hddsDivide_length (hddsOf l) (ssdsOf l).length
  have hflat := hddsDivide_flatten (hddsOf l) (ssdsOf l).length hSpos
  have hmap := hddsDivide_map_length (hddsOf l) (ssdsOf l).length
  have hsum : ((hddsDivide (hddsOf l) (ssdsOf l).length).map List.length).sum
      = (hddsOf l).length := by
    rw [← List.length_flatten, hflat]
  refine ⟨hlen, hflat, hsum, ?_, ?_, ?_, ?_⟩
  · rw [hmap]
    exact chunkSizes_diff_le_one _ _ hSpos
  · rw [hmap]
    exact chunkSizes_pairwise _ _
  · rw [getRTDevices_hybrid l cfg hA hM hS hLe]
  · rw [getRTDevices_hybrid l cfg hA hM hS hLe]
    exact (flatten_zip_map_length _ _ _ hlen).trans hsum

theorem c1_hybrid_balanced_partition_witness :
    ssdsOf disksW1 ≠ [] ∧
    (ssdsOf disksW1).length ≤ (hddsOf disksW1).length ∧
    (hddsDivide (hddsOf disksW1) (ssdsOf disksW1).length).flatten = hddsOf disksW1 ∧
    (getRTDevices disksW1 (some cfgW1)).1.length = (hddsOf disksW1).length :=
  ⟨by decide, by decide,
    (c1_hybrid_balanced_partition disksW1 cfgW1 rfl rfl (by decide) (by decide)).2.1,
    (c1_hybrid_balanced_partition disksW1 cfgW1 rfl rfl (by decide)
      (by decide)).2.2.2.2.2.2⟩

/-- C2 counterexample: with `useBCache = false` and `useBCacheWB = true`
the hybrid assignment's `BcacheWritearound` is 0, not the 1 the claim's
truth table demands for every `useBCache = false` case (the
`map[bool]int{...}[UseBCacheWB]` initialiser consults `UseBCacheWB`
even when caching is off). -/
theorem c2_cache_truth_table_counterexample :
    cfgC2.useBCache = false ∧ cfgC2.useBCacheWB = true ∧
    (getRTDevices [diskSsdA, diskHddA] (some cfgC2)).1.map
      (fun d => d.bcacheWritearound) = [0] := by
  refine ⟨rfl, rfl, ?_⟩
  decide

/-- C2 (amended): in every hybrid-policy assignment,
`BcacheWritearound = 0` iff `useBCacheWB` is set (whether or not
`useBCache` is set), and `Bcache = 1` iff `useBCache` is set; the
claim's original table stands except that with caching off and
`useBCacheWB = true` write-around is 0, not 1. -/
theorem c2_cache_truth_table (l : List LocalDisk) (cfg : StoreConfig)
    (dev : RTDevice) (hA : cfg.useAllSSD = false)
    (hM : cfg.useMetadataOffload = true)
    (hd : dev ∈ (getRTDevices l (some cfg)).1) :
    dev.bcacheWritearound = (if cfg.useBCacheWB then 0 else 1) ∧
    dev.bcache = (if cfg.useBCache then 1 else 0) := by
  obtain ⟨hdd, ssd, rfl⟩ := mem_getRTDevices_hybrid l cfg dev hA hM hd
  exact mkHybridRTDevice_cache cfg hdd ssd

theorem c2_cache_truth_table_witness :
    mkHybridRTDevice cfgW1 diskHddA diskSsdA ∈
      (getRTDevices [diskSsdA, diskHddA] (some cfgW1)).1 ∧
    ((mkHybridRTDevice cfgW1 diskHddA diskSsdA).bcacheWritearound =
        (if cfgW1.useBCacheWB then 0 else 1) ∧
      (mkHybridRTDevice cfgW1 diskHddA diskSsdA).bcache =
        (if cfgW1.useBCache then 1 else 0)) :=
  ⟨by decide,
    c2_cache_truth_table [diskSsdA, diskHddA] cfgW1 _ rfl rfl (by decide)⟩

/-- C3: under the hybrid policy, the assignment produced for a
rotational disk in group `i` carries solid-state disk `i`'s normalized
name as `Journal`, and as `Metadata` that same name, a literal comma,
and the configured `useMetadataMask`. -/
theorem c3_hybrid_journal_metadata (l : List LocalDisk) (cfg : StoreConfig)
    (hA : cfg.useAllSSD = false) (hM : cfg.useMetadataOffload = true)
    (hS : ssdsOf l ≠ []) (hLe : (ssdsOf l).length ≤ (hddsOf l).length)
    (i : Nat) (grp : List LocalDisk) (ssd hdd : LocalDisk)
    (hg : (hddsDivide (hddsOf l) (ssdsOf l).length)[i]? = some grp)
    (hs : (ssdsOf l)[i]? = some ssd)
    (hhdd : hdd ∈ grp) :
    mkHybridRTDevice cfg hdd ssd ∈ (getRTDevices l (some cfg)).1 ∧
    (mkHybridRTDevice cfg hdd ssd).journal = getIdDevLinkName ssd.devLinks ∧
    (mkHybridRTDevice cfg hdd ssd).metadata =
      getIdDevLinkName ssd.devLinks ++ "," ++ cfg.useMetadataMask := by
  refine ⟨?_, (mkHybridRTDevice_fields cfg hdd ssd).1,
    (mkHybridRTDevice_fields cfg hdd ssd).2.1⟩
  rw [getRTDevices_hybrid l cfg hA hM hS hLe]
  obtain ⟨hgl, hge⟩ := List.getElem?_eq_some_iff.1 hg
  obtain ⟨hsl, hse⟩ := List.getElem?_eq_some_iff.1 hs
  apply List.mem_flatten.2
  refine ⟨grp.map (fun hdd => mkHybridRTDevice cfg hdd ssd), ?_,
    List.mem_map_of_mem _ hhdd⟩
  have hz : i < ((hddsDivide (hddsOf l) (ssdsOf l).length).zip (ssdsOf l)).length := by
    rw [List.length_zip]
    exact lt_min hgl hsl
  have hmem := List.getElem_mem (l :=
    ((hddsDivide (hddsOf l) (ssdsOf l).length).zip (ssdsOf l)).map
      (fun p => p.1.map (fun hdd => mkHybridRTDevice cfg hdd p.2)))
    (n := i) (by simpa using hz)
  rw [List.getElem_map, List.getElem_zip] at hmem
  simp only [hge, hse] at hmem
  exact hmem

theorem c3_hybrid_journal_metadata_witness :
    mkHybridRTDevice cfgW1 diskHddE diskSsdB ∈
      (getRTDevices disksW1 (some cfgW1)).1 ∧
    (mkHybridRTDevice cfgW1 diskHddE diskSsdB).journal =
      getIdDevLinkName diskSsdB.devLinks ∧
    (mkHybridRTDevice cfgW1 diskHddE diskSsdB).metadata =
      getIdDevLinkName diskSsdB.devLinks ++ "," ++ cfgW1.useMetadataMask :=
  c3_hybrid_journal_metadata disksW1 cfgW1 rfl rfl (by decide) (by decide)
    1 [diskHddD, diskHddE] diskSsdB diskHddE (by decide) (by decide) (by decide)

/-- C4 counterexample: the claim asserts the zero-eligible-disk error
"in particular when the input disk list itself is empty", but
`GetRTDevices` returns an empty success (nil error) for the empty list
(layout.go lines 55–57) even under the all-SSD policy with zero
eligible solid-state disks. -/
theorem c4_zero_media_error_counterexample :
    cfgC4.useAllSSD = true ∧ ssdsOf [] = [] ∧
    (getRTDevices [] (some cfgC4)).2 = none :=
  ⟨rfl, rfl, rfl⟩

/-- C4 (amended): for every NON-EMPTY input disk list and non-nil
StoreConfig, if the policy is all-solid-state and there are zero
eligible solid-state disks, or the policy is all-rotational or hybrid
and there are zero eligible rotational disks, `GetRTDevices` returns a
configuration error and no assignments; the empty input list instead
returns an empty success. -/
theorem c4_zero_media_error (l : List LocalDisk) (cfg : StoreConfig)
    (hl : l ≠ [])
    (h : (cfg.useAllSSD = true ∧ ssdsOf l = []) ∨
      (cfg.useAllSSD = false ∧ hddsOf l = [])) :
    (getRTDevices l (some cfg)).1 = [] ∧
    (getRTDevices l (some cfg)).2 ≠ none := by
  rcases h with ⟨hA, hS⟩ | ⟨hA, hH⟩
  · rw [getRTDevices_noSSD l cfg hA hl hS]
    exact ⟨rfl, by simp⟩
  · rw [getRTDevices_noHDD l cfg hA hl hH]
    exact ⟨rfl, by simp⟩

theorem c4_zero_media_error_witness :
    ([diskHddA] : List LocalDisk) ≠ [] ∧
    (getRTDevices [diskHddA] (some cfgC4)).1 = [] ∧
    (getRTDevices [diskHddA] (some cfgC4)).2 ≠ none :=
  ⟨by decide,
    c4_zero_media_error [diskHddA] cfgC4 (by decide) (Or.inl ⟨rfl, by decide⟩)⟩

/-- C5 counterexample: the source skips any candidate CONTAINING
`"wwn-"` (`strings.Contains`), not only candidates with that prefix:
for `"ata-wwn-1 scsi-2"` the code answers `"scsi-2"` while the claim's
prefix rule selects `"ata-wwn-1"`. -/
theorem c5_name_normalization_counterexample :
    getIdDevLinkName "ata-wwn-1 scsi-2" = "scsi-2" ∧
    getIdDevLinkNameSpecPfx "ata-wwn-1 scsi-2" = "ata-wwn-1" ∧
    ("scsi-2" : String) ≠ "ata-wwn-1" := by
  refine ⟨by decide, by decide, by decide⟩

/-- C5 (amended): name normalization returns the first
whitespace-separated candidate (after dropping the first
`"/dev/disk/by-id/"` occurrence) that neither contains a path
separator nor CONTAINS the substring `"wwn-"`, and returns the empty
string when no candidate qualifies; the claim's example input still
yields `"ata-X"`. -/
theorem c5_name_normalization :
    (∀ dls : String, getIdDevLinkName dls = getIdDevLinkNameSpecSub dls) ∧
    getIdDevLinkName
      "/dev/disk/by-id/wwn-0x123 /dev/disk/by-id/ata-X nested/path-Y" = "ata-X" ∧
    getIdDevLinkName "/dev/disk/by-id/wwn-0x123 nested/path-Y" = "" := by
  refine ⟨fun dls => ?_, by decide, by decide⟩
  simp only [getIdDevLinkName, getIdDevLinkNameSpecSub]
  exact pickDevLink_eq_spec (splitOnSpaceStr dls)

/-- C6 counterexample: under the all-SSD policy with zero eligible
solid-state disks, the empty input list yields an empty success, not
the configuration error the claim requires whenever no eligible
solid-state disk exists. -/
theorem c6_all_ssd_counterexample :
    cfgC6.useAllSSD = true ∧ ssdsOf [] = [] ∧
    (getRTDevices [] (some cfgC6)).2 = none :=
  ⟨rfl, rfl, rfl⟩

/-- C6 (amended): under the all-SSD policy, if at least one eligible
solid-state disk exists the output is exactly one assignment per
eligible solid-state disk in discovery order (and none for rotational
disks); if the input list is NON-EMPTY and no eligible solid-state
disk exists, the call fails with a configuration error (the empty
input list returns an empty success). -/
theorem c6_all_ssd_policy (l : List LocalDisk) (cfg : StoreConfig)
    (hA : cfg.useAllSSD = true) :
    (ssdsOf l ≠ [] →
      getRTDevices l (some cfg) = ((ssdsOf l).map (mkPlainRTDevice cfg), none)) ∧
    (l ≠ [] → ssdsOf l = [] →
      (getRTDevices l (some cfg)).1 = [] ∧
      (getRTDevices l (some cfg)).2 ≠ none) := by
  constructor
  · intro hS
    exact getRTDevices_allSSD l cfg hA hS
  · intro hl hS
    rw [getRTDevices_noSSD l cfg hA hl hS]
    exact ⟨rfl, by simp⟩

theorem c6_all_ssd_policy_witness :
    getRTDevices [diskSsdA, diskHddA, diskSsdB] (some cfgC6) =
      ((ssdsOf [diskSsdA, diskHddA, diskSsdB]).map (mkPlainRTDevice cfgC6), none) :=
  (c6_all_ssd_policy [diskSsdA, diskHddA, diskSsdB] cfgC6 rfl).1 (by decide)

/-- C7 counterexample: under the all-rotational policy with zero
eligible rotational disks, the empty input list yields an empty
success, not the configuration error the claim requires whenever no
eligible rotational disk exists. -/
theorem c7_all_rotational_counterexample :
    cfgC7.useAllSSD = false ∧ cfgC7.useMetadataOffload = false ∧
    hddsOf [] = [] ∧ (getRTDevices [] (some cfgC7)).2 = none :=
  ⟨rfl, rfl, rfl, rfl⟩

/-- C7 (amended): under the all-rotational policy, if at least one
eligible rotational disk exists the output is exactly one assignment
per eligible rotational disk in discovery order (and none for
solid-state disks); if the input list is NON-EMPTY and no eligible
rotational disk exists, the call fails with a configuration error (the
empty input list returns an empty success). -/
theorem c7_all_rotational_policy (l : List LocalDisk) (cfg : StoreConfig)
    (hA : cfg.useAllSSD = false) (hM : cfg.useMetadataOffload = false) :
    (hddsOf l ≠ [] →
      getRTDevices l (some cfg) = ((hddsOf l).map (mkPlainRTDevice cfg), none)) ∧
    (l ≠ [] → hddsOf l = [] →
      (getRTDevices l (some cfg)).1 = [] ∧
      (getRTDevices l (some cfg)).2 ≠ none) := by
  constructor
  · intro hH
    exact getRTDevices_allHDD l cfg hA hM hH
  · intro hl hH
    rw [getRTDevices_noHDD l cfg hA hl hH]
    exact ⟨rfl, by simp⟩

theorem c7_all_rotational_policy_witness :
    getRTDevices [diskHddA, diskSsdA, diskHddB] (some cfgC7) =
      ((hddsOf [diskHddA, diskSsdA, diskHddB]).map (mkPlainRTDevice cfgC7), none) :=
  (c7_all_rotational_policy [diskHddA, diskSsdA, diskHddB] cfgC7 rfl rfl).1
    (by decide)

/-- C8: an ineligible disk (not empty, or with partitions) never
contributes an assignment: the device list `GetRTDevices` produces is
unchanged when the ineligible disks are removed from the input, for
every input list, configuration (nil included) and policy. -/
theorem c8_ineligible_never_contributes (l : List LocalDisk)
    (cfg? : Option StoreConfig) :
    (getRTDevices l cfg?).1 = (getRTDevices (l.filter eligible) cfg?).1 := by
  cases cfg? with
  | none => rfl
  | some cfg =>
    by_cases hl : l = []
    · subst hl
      rfl
    · by_cases hfe : l.filter eligible = []
      · have hS : ssdsOf l = [] := by
          rw [← ssdsOf_filter_eligible l, hfe]
          rfl
        have hH : hddsOf l = [] := by
          rw [← hddsOf_filter_eligible l, hfe]
          rfl
        have hR : getRTDevices (l.filter eligible) (some cfg) = ([], none) := by
          rw [hfe]
          rfl
        rw [hR]
        cases hA : cfg.useAllSSD with
        | true => rw [getRTDevices_noSSD l cfg hA hl hS]
        | false => rw [getRTDevices_noHDD l cfg hA hl hH]
      · have h1 : l.isEmpty = false := isEmpty_false_of_ne l hl
        have h2 : (l.filter eligible).isEmpty = false := isEmpty_false_of_ne _ hfe
        simp only [getRTDevices, h1, h2, Bool.false_eq_true, if_false,
          ssdsOf_filter_eligible, hddsOf_filter_eligible, devicesOf_filter_eligible]

/-- C9 counterexample: the claim says a nil StoreConfig is reported as
a descriptive error result by BOTH planners, but `GetRtlfsDevices` has
no error return at all: with a non-empty directory list it dereferences
the nil pointer inside its loop (a runtime panic, modelled `none`), so
no error value reaches the caller; only `GetRTDevices` reports one. -/
theorem c9_nil_config_counterexample :
    getRtlfsDevices [{ path := "/data/dir" }] none = none ∧
    getRTDevices [] none = ([], some "no pointer to StoreConfig provided") :=
  ⟨rfl, rfl⟩

/-- C9 (amended): `GetRTDevices` reports a nil StoreConfig
synchronously as a descriptive error with an empty device list;
`GetRtlfsDevices` performs no nil check — with a non-empty directory
list the nil pointer is dereferenced in its loop (runtime panic,
modelled `none`), and with an empty list it returns an empty result. -/
theorem c9_nil_config :
    (∀ l : List LocalDisk,
      getRTDevices l none = ([], some "no pointer to StoreConfig provided")) ∧
    (∀ dirs : List Directory, dirs ≠ [] → getRtlfsDevices dirs none = none) ∧
    getRtlfsDevices [] none = some [] := by
  refine ⟨fun l => rfl, fun dirs h => ?_, rfl⟩
  cases dirs with
  | nil => exact absurd rfl h
  | cons d rest => rfl

theorem c9_nil_config_witness :
    getRtlfsDevices [{ path := "/data" }] none = none :=
  c9_nil_config.2.1 [{ path := "/data" }] (by decide)

/-- C10: `GetRtlfsDevices` maps every directory, in order, to exactly
one assignment — never failing, never filtering — whose name is the
path's final component, whose mount-check flag is 0, which passes
page-size, verify-checksum and sync through, and which carries the
capacity cap exactly when `maxSize ≠ 0` and the partition-level
override exactly when `rtPLevelOverride ≠ 0` (the fields stay 0
otherwise); an empty directory list yields an empty result. -/
theorem c10_directory_planner (dirs : List Directory) (cfg : StoreConfig) :
    getRtlfsDevices dirs (some cfg) = some (dirs.map (mkRtlfsDevice cfg)) ∧
    (∀ dir : Directory,
      (mkRtlfsDevice cfg dir).name = filepathBase dir.path ∧
      (mkRtlfsDevice cfg dir).path = dir.path ∧
      (mkRtlfsDevice cfg dir).checkMountpoint = 0 ∧
      (mkRtlfsDevice cfg dir).psize = cfg.lmdbPageSize ∧
      (mkRtlfsDevice cfg dir).verifyChid = cfg.rtVerifyChid ∧
      (mkRtlfsDevice cfg dir).sync = cfg.sync ∧
      (mkRtlfsDevice cfg dir).maxsize = (if cfg.maxSize ≠ 0 then cfg.maxSize else 0) ∧
      (mkRtlfsDevice cfg dir).plevelOverride =
        (if cfg.rtPLevelOverride ≠ 0 then cfg.rtPLevelOverride else 0)) ∧
    getRtlfsDevices [] (some cfg) = some [] := by
  refine ⟨?_, ?_, rfl⟩
  · induction dirs with
    | nil => rfl
    | cons d rest ih =>
      simp [getRtlfsDevices, ih]
  · intro dir
    rcases eq_or_ne cfg.maxSize 0 with h1 | h1 <;>
      rcases eq_or_ne cfg.rtPLevelOverride 0 with h2 | h2 <;>
      simp [mkRtlfsDevice, h1, h2]

end Layout
